import Mathlib

/-!
Shallow embedding of `lucet-spectest/src/script.rs`: the script environment of
the lucet spec-test harness.  The registry of instances is a
`Vec<(Option<String>, Instance)>`; the compilation pipeline calls out to
external collaborators (wasm decoder, lucetc, ld, lucet-runtime) whose results
are modelled by an oracle structure, since those crates are outside this
repository and are specified only by their interfaces.
-/

set_option autoImplicit false

namespace LucetSpectest

/-! External collaborator data.  These types are opaque services from the point
of view of `script.rs`; each carries an identifier (or message text) so that
distinct values can be told apart. -/

/-- Error kind of `lucetc::error::LucetcError`, as consumed by `script.rs`
(`Validation`, `Unsupported(_)` and other kinds). -/
inductive LucetcErrorKind where
  | Validation
  | Unsupported (feature : String)
  | Other (desc : String)
deriving DecidableEq, Repr

/-- `lucetc::error::LucetcError`: a failure context with a kind. -/
structure LucetcError where
  kind : LucetcErrorKind
  msg : String
deriving DecidableEq, Repr

/-- `LucetcError::get_context` returns the error kind. -/
def LucetcError.get_context (e : LucetcError) : LucetcErrorKind := e.kind

/-- `lucetc::program::Program` (opaque). -/
structure Program where
  id : Nat
deriving DecidableEq, Repr

/-- A structured wasm module produced by `parity_wasm::deserialize_buffer` (opaque). -/
structure WasmModule where
  id : Nat
deriving DecidableEq, Repr

/-- The compiler value returned by `lucetc::compile` (opaque). -/
structure CompilerUnit where
  id : Nat
deriving DecidableEq, Repr

/-- The native object produced by `Compiler::codegen` (opaque). -/
structure ObjectCode where
  id : Nat
deriving DecidableEq, Repr

/-- A loaded `lucet_runtime::DlModule` handle (opaque). -/
structure LucetModule where
  id : Nat
deriving DecidableEq, Repr

/-- A `lucet_runtime::MmapRegion` (opaque). -/
structure MmapRegion where
  id : Nat
deriving DecidableEq, Repr

/-- A live sandbox instance created by `Region::new_instance` (opaque). -/
structure SandboxInstance where
  id : Nat
deriving DecidableEq, Repr

/-- A scoped temporary directory created by `tempfile::Builder::tempdir`;
deleted from disk when dropped. -/
structure TempDir where
  path : String
deriving DecidableEq, Repr

/-- The captured output of the `ld` subprocess: exit status and stderr text. -/
structure LdOutput where
  success : Bool
  stderr : String
deriving DecidableEq, Repr

/-- `ScriptError` from `script.rs`: the closed error taxonomy.  Payloads of
external error types are modelled by their data (`LucetcError`) or message
text. -/
inductive ScriptError where
  | DeserializeError (e : String)
  | ValidationError (e : LucetcError)
  | ProgramError (e : LucetcError)
  | CompileError (e : LucetcError)
  | CodegenError (e : String)
  | LoadError (e : String)
  | InstantiateError (e : String)
  | RuntimeError (e : String)
  | MalformedScript (msg : String)
  | IoError (e : String)
deriving DecidableEq, Repr

/-- `ScriptError::unsupported`: true exactly on `ProgramError` / `CompileError`
whose `LucetcError` context is `Unsupported(_)`. -/
def ScriptError.unsupported : ScriptError → Bool
  | .ProgramError lucetc_err | .CompileError lucetc_err =>
    match lucetc_err.get_context with
    | .Unsupported _ => true
    | _ => false
  | _ => false

/-- `fn program_error`: map a `Program::new` failure to `ValidationError` when
its kind is `Validation`, and to `ProgramError` otherwise. -/
def program_error (e : LucetcError) : ScriptError :=
  match e.get_context with
  | .Validation => ScriptError.ValidationError e
  | _ => ScriptError.ProgramError e

/-- `lucet_spectest::instance::Instance`: bundles the program representation,
the loaded module handle, the region and the live sandbox instance.
`Instance::new(program, lucet_module, lucet_region, lucet_instance)`. -/
structure Instance where
  program : Program
  module : LucetModule
  region : MmapRegion
  inst : SandboxInstance
deriving DecidableEq, Repr

/-- One registry entry: `(Option<String>, Instance)`. -/
abbrev RegistryEntry := Option String × Instance

/-- `ScriptEnv`: the ordered instance registry. -/
structure ScriptEnv where
  instances : List RegistryEntry
deriving DecidableEq, Repr

/-- `ScriptEnv::new`. -/
def ScriptEnv.new : ScriptEnv := ⟨[]⟩

/-- Position of the first entry whose stored name equals `Some n`
(`self.instances.iter_mut().find(|(iname, _)| *iname == *name)`, with the
position of the returned mutable reference made explicit). -/
def findIndexNamed (n : String) : List RegistryEntry → Option Nat
  | [] => none
  | p :: rest =>
    if p.1 == some n then some 0
    else (findIndexNamed n rest).map (· + 1)

/-- `ScriptEnv::instance_named_mut`: resolve an optional name to the position
of the registry entry a mutable borrow would point at.  `None` resolves to the
last entry (`last_mut`); `Some n` to the first entry whose stored name equals
the requested name.  Failure is a `MalformedScript` error. -/
def ScriptEnv.instance_named_mut (env : ScriptEnv) (name : Option String) :
    Except ScriptError Nat :=
  match name with
  | none =>
    if env.instances.isEmpty then
      .error (.MalformedScript "no defined instances")
    else
      .ok (env.instances.length - 1)
  | some n =>
    match findIndexNamed n env.instances with
    | some i => .ok i
    | none => .error (.MalformedScript ("no instance named " ++ n))

/-- `ScriptEnv::instance_named`: resolve an optional name to the `Instance` of
the selected entry.  `None` resolves to the last entry (`last`); `Some n` to
the first entry whose stored name equals the requested name (`find`). -/
def ScriptEnv.instance_named (env : ScriptEnv) (name : Option String) :
    Except ScriptError Instance :=
  match name with
  | none =>
    match env.instances.getLast? with
    | some p => .ok p.2
    | none => .error (.MalformedScript "no defined instances")
  | some n =>
    match env.instances.find? (fun p => p.1 == some n) with
    | some p => .ok p.2
    | none => .error (.MalformedScript ("no instance named " ++ n))

/-- Overwrite the element at a position of a list (`*oldname = ...` through a
mutable reference into the vector). -/
def listModify {α : Type} (f : α → α) : Nat → List α → List α
  | _, [] => []
  | 0, x :: xs => f x :: xs
  | n + 1, x :: xs => x :: listModify f n xs

/-- `ScriptEnv::register`: resolve the entry by `name`, then overwrite its
stored name with `Some(as_name)`. -/
def ScriptEnv.register (env : ScriptEnv) (name : Option String) (as_name : String) :
    Except ScriptError ScriptEnv :=
  match env.instance_named_mut name with
  | .error e => .error e
  | .ok i => .ok ⟨listModify (fun p => (some as_name, p.2)) i env.instances⟩

/-- `ScriptEnv::delete_last`: `let last_index = self.instances.len() - 1;
self.instances.remove(last_index);`.  On an empty registry `len() - 1`
underflows (and `remove` would be out of bounds): a Rust panic, modelled as
`none`. -/
def ScriptEnv.delete_last (env : ScriptEnv) : Option ScriptEnv :=
  match env.instances with
  | [] => none
  | _ :: _ => some ⟨env.instances.eraseIdx (env.instances.length - 1)⟩

/-! The compilation pipeline of `ScriptEnv::instantiate`.  Every call into an
external collaborator is fallible; an `ExternalWorld` records the result each
such call would produce during one `instantiate` attempt. -/

deriving instance DecidableEq for Except

/-- Results of the external collaborator calls made by one `instantiate`
attempt, in pipeline order. -/
structure ExternalWorld where
  /-- `deserialize_buffer(&module)` -/
  deserialize_buffer : Except String WasmModule
  /-- `Program::new(module, bindings, HeapSettings::default())` -/
  program_new : Except LucetcError Program
  /-- `tempfile::Builder::new().prefix("codegen").tempdir()` -/
  tempdir_new : Except String TempDir
  /-- `compile(&program, name, OptLevel::Default)` -/
  compile : Except LucetcError CompilerUnit
  /-- `compiler.codegen()` -/
  codegen : Except String ObjectCode
  /-- `object.write(&objfile_path)` -/
  object_write : Except String Unit
  /-- `cmd_ld.output()` -/
  ld_output : Except String LdOutput
  /-- `lucet_runtime::DlModule::load(sofile_path)` -/
  dlmodule_load : Except String LucetModule
  /-- `MmapRegion::create(1, &Limits::default())` -/
  mmap_region_create : Except String MmapRegion
  /-- `lucet_region.new_instance(lucet_module.clone())` -/
  new_instance : Except String SandboxInstance
deriving DecidableEq, Repr

/-- Observable state threaded through `instantiate`: the registry and the
scoped temporary directories currently existing on disk. -/
structure ScriptState where
  env : ScriptEnv
  tempDirs : List TempDir
deriving DecidableEq, Repr

/-- Outcome of a call: normal return with a value, early return with a
`ScriptError`, or a Rust panic. -/
inductive RunOutcome (α : Type) where
  | ok (a : α)
  | err (e : ScriptError)
  | panicked (msg : String)
deriving DecidableEq, Repr

/-- Whether an outcome is a panic. -/
def RunOutcome.isPanic {α : Type} : RunOutcome α → Bool
  | .panicked _ => true
  | _ => false

/-- `ScriptEnv::instantiate`, stage by stage.  After the scoped temporary
directory is created, Rust drops it (deleting it from disk) on every exit
path out of the function body — early `?` returns, the panic unwind of
`expect`, and normal return — which the embedding makes explicit by applying
`dropDir` on each such path.  The registry is only touched by the final
`push` on the success path. -/
def instantiate (w : ExternalWorld) (name : Option String) (st : ScriptState) :
    RunOutcome Unit × ScriptState :=
  match w.deserialize_buffer with
  | .error e => (.err (.DeserializeError e), st)
  | .ok _module =>
  match w.program_new with
  | .error e => (.err (program_error e), st)
  | .ok program =>
  match w.tempdir_new with
  | .error e => (.err (.IoError e), st)
  | .ok dir =>
    let live : ScriptState := { st with tempDirs := dir :: st.tempDirs }
    let dropDir : ScriptState → ScriptState :=
      fun s => { s with tempDirs := s.tempDirs.erase dir }
    match w.compile with
    | .error e => (.err (.CompileError e), dropDir live)
    | .ok _compiler =>
    match w.codegen with
    | .error e => (.err (.CodegenError e), dropDir live)
    | .ok _object =>
    match w.object_write with
    | .error e => (.err (.CodegenError e), dropDir live)
    | .ok _ =>
    match w.ld_output with
    | .error e => (.err (.IoError e), dropDir live)
    | .ok run_ld =>
    if !run_ld.success then
      (.err (.CodegenError ("ld " ++ dir.path ++ "/a.o" ++ ": " ++ run_ld.stderr)),
        dropDir live)
    else
    match w.dlmodule_load with
    | .error e => (.err (.LoadError e), dropDir live)
    | .ok lucet_module =>
    match w.mmap_region_create with
    | .error _ => (.panicked "valid region", dropDir live)
    | .ok lucet_region =>
    match w.new_instance with
    | .error e => (.err (.InstantiateError e), dropDir live)
    | .ok lucet_instance =>
      (.ok (),
        { env := ⟨st.env.instances ++
            [(name, Instance.mk program lucet_module lucet_region lucet_instance)]⟩,
          tempDirs := (dropDir live).tempDirs })

/-! Concrete data used by witnesses. -/

/-- A concrete instance. -/
def inst1 : Instance := ⟨⟨1⟩, ⟨1⟩, ⟨1⟩, ⟨1⟩⟩

/-- A second, distinct concrete instance. -/
def inst2 : Instance := ⟨⟨2⟩, ⟨2⟩, ⟨2⟩, ⟨2⟩⟩

/-- An external world in which every collaborator call succeeds. -/
def okWorld : ExternalWorld :=
  ⟨.ok ⟨0⟩, .ok ⟨0⟩, .ok ⟨"/tmp/codegen0"⟩, .ok ⟨0⟩, .ok ⟨0⟩, .ok (),
   .ok ⟨true, ""⟩, .ok ⟨0⟩, .ok ⟨0⟩, .ok ⟨0⟩⟩

/-- An external world in which only `MmapRegion::create` fails. -/
def regionFailWorld : ExternalWorld :=
  ⟨.ok ⟨0⟩, .ok ⟨0⟩, .ok ⟨"/tmp/codegen0"⟩, .ok ⟨0⟩, .ok ⟨0⟩, .ok (),
   .ok ⟨true, ""⟩, .ok ⟨0⟩, .error "mmap failed", .ok ⟨0⟩⟩

/-- The empty starting state: no instances, no temporary directories. -/
def emptyState : ScriptState := ⟨⟨[]⟩, []⟩

/-! Theorems. -/

/-- Claim C5: `unsupported(e)` is true if and only if `e` is a `ProgramError`
or `CompileError` whose underlying `LucetcError` context is
`Unsupported(_)`; it is false on every other error kind. -/
theorem unsupported_iff (e : ScriptError) :
    e.unsupported = true ↔
      ∃ le f, (e = .ProgramError le ∨ e = .CompileError le) ∧
        le.get_context = .Unsupported f := by
  cases e <;>
    simp only [ScriptError.unsupported, LucetcError.get_context] <;>
    constructor
  case ProgramError le =>
    intro h
    cases hk : le.kind with
    | Unsupported f => exact ⟨le, f, Or.inl rfl, hk⟩
    | Validation => rw [hk] at h; cases h
    | Other d => rw [hk] at h; cases h
  case ProgramError le =>
    rintro ⟨le', f, h | h, hk⟩ <;> cases h
    rw [hk]
  case CompileError le =>
    intro h
    cases hk : le.kind with
    | Unsupported f => exact ⟨le, f, Or.inr rfl, hk⟩
    | Validation => rw [hk] at h; cases h
    | Other d => rw [hk] at h; cases h
  case CompileError le =>
    rintro ⟨le', f, h | h, hk⟩ <;> cases h
    rw [hk]
  all_goals rintro ⟨le', f, h | h, hk⟩ <;> cases h

/-- Claim C5 witness: an unsupported-feature `ProgramError` is reported as
unsupported. -/
theorem unsupported_iff_witness :
    ScriptError.unsupported (.ProgramError ⟨.Unsupported "simd", "m"⟩) = true :=
  (unsupported_iff (.ProgramError ⟨.Unsupported "simd", "m"⟩)).mpr
    ⟨⟨.Unsupported "simd", "m"⟩, "simd", Or.inl rfl, rfl⟩

/-- Claim C4: a program-construction failure with `Validation` kind is mapped
to `ValidationError`, any other kind to `ProgramError`; `program_error` never
produces `CompileError`; and inside `instantiate` a validation-kind failure of
`Program::new` is returned exactly as `ValidationError`. -/
theorem program_error_classification (e : LucetcError) :
    (e.get_context = .Validation → program_error e = .ValidationError e) ∧
    (e.get_context ≠ .Validation → program_error e = .ProgramError e) ∧
    (∀ le, program_error e ≠ .CompileError le) ∧
    (∀ w name st m, w.deserialize_buffer = .ok m → w.program_new = .error e →
      e.get_context = .Validation →
      (instantiate w name st).1 = .err (.ValidationError e)) := by
  refine ⟨?_, ?_, ?_, ?_⟩
  · intro h
    simp [program_error, LucetcError.get_context] at h ⊢
    rw [h]
  · intro h
    unfold program_error
    cases hk : e.get_context with
    | Validation => exact absurd hk h
    | Unsupported f => rfl
    | Other d => rfl
  · intro le
    unfold program_error
    cases e.get_context <;> intro h <;> cases h
  · intro w name st m h1 h2 hv
    obtain ⟨d, pn, td, cp, cg, ow, lo, dl, rc, ni⟩ := w
    simp only at h1 h2
    subst h1; subst h2
    show RunOutcome.err (program_error e) = _
    have hk : e.kind = .Validation := hv
    simp [program_error, LucetcError.get_context, hk]

/-- Claim C4 witness: a concrete validation-kind failure is classified as
`ValidationError`. -/
theorem program_error_classification_witness :
    program_error ⟨.Validation, "bad import"⟩ =
      .ValidationError ⟨.Validation, "bad import"⟩ :=
  (program_error_classification ⟨.Validation, "bad import"⟩).1 rfl

/-- Claim C8: `delete_last` on an empty registry is a panic (modelled `none`),
with no emptiness check at this layer; under the precondition that the
registry is non-empty it never reaches the panic branch. -/
theorem delete_last_empty_panics (env : ScriptEnv) :
    (env.instances = [] → env.delete_last = none) ∧
    (env.instances ≠ [] → (env.delete_last).isSome = true) := by
  obtain ⟨l⟩ := env
  cases l <;> simp [ScriptEnv.delete_last]

/-- Claim C8 witness: the panic branch on the empty registry and its absence
on a singleton registry. -/
theorem delete_last_empty_panics_witness :
    (ScriptEnv.mk []).delete_last = none ∧
    ((ScriptEnv.mk [(none, inst1)]).delete_last).isSome = true :=
  ⟨(delete_last_empty_panics ⟨[]⟩).1 rfl,
   (delete_last_empty_panics ⟨[(none, inst1)]⟩).2 (by decide)⟩

/-- Removing the element at position `length - 1` is dropping the last
element. -/
theorem eraseIdx_length_sub_one {α : Type} (l : List α) :
    l.eraseIdx (l.length - 1) = l.dropLast := by
  cases l with
  | nil => rfl
  | cons x xs =>
    rw [List.eraseIdx_eq_take_drop_succ, List.dropLast_eq_take]
    simp

/-- Claim C7: on a non-empty registry, `delete_last` keeps exactly the first
`n - 1` entries in order, removing the most recently appended entry; the
previously second-most-recent entry becomes the entry resolved by an absent
name. -/
theorem delete_last_drops_last (env : ScriptEnv) (h : env.instances ≠ []) :
    env.delete_last = some ⟨env.instances.dropLast⟩ ∧
    env.instances.dropLast.length = env.instances.length - 1 ∧
    (∀ j, j < env.instances.length - 1 →
      (env.instances.dropLast)[j]? = env.instances[j]?) ∧
    (∀ (l : List RegistryEntry) (p q : RegistryEntry), env.instances = l ++ [p, q] →
      ScriptEnv.instance_named ⟨env.instances.dropLast⟩ none = .ok p.2) := by
  refine ⟨?_, List.length_dropLast _, ?_, ?_⟩
  · obtain ⟨l⟩ := env
    cases l with
    | nil => exact absurd rfl h
    | cons x xs =>
      have hrfl : ScriptEnv.delete_last ⟨x :: xs⟩ =
          some ⟨(x :: xs).eraseIdx ((x :: xs).length - 1)⟩ := rfl
      rw [hrfl, eraseIdx_length_sub_one]
  · intro j hj
    rw [List.dropLast_eq_take]
    exact List.getElem?_take_of_lt hj
  · intro l p q hsplit
    have hd : env.instances.dropLast = l ++ [p] := by
      rw [hsplit, show l ++ [p, q] = (l ++ [p]) ++ [q] from by simp]
      exact List.dropLast_concat
    simp [ScriptEnv.instance_named, hd, List.getLast?_concat]

/-- Claim C7 witness: deleting the last of two entries keeps exactly the
first. -/
theorem delete_last_drops_last_witness :
    (ScriptEnv.mk [(none, inst1), (none, inst2)]).delete_last =
      some ⟨[(none, inst1)]⟩ := by
  have h := (delete_last_drops_last ⟨[(none, inst1), (none, inst2)]⟩ (by decide)).1
  simpa using h

/-- A successful `findIndexNamed` points at the entry `find?` returns. -/
theorem findIndexNamed_some_spec {n : String} :
    ∀ {l : List RegistryEntry} {i : Nat}, findIndexNamed n l = some i →
    ∃ p, l[i]? = some p ∧ List.find? (fun q => q.1 == some n) l = some p := by
  intro l
  induction l with
  | nil => intro i h; cases h
  | cons x xs ih =>
    intro i h
    rw [show findIndexNamed n (x :: xs) =
        (if x.1 == some n then some 0 else (findIndexNamed n xs).map (· + 1))
      from rfl] at h
    by_cases hx : x.1 == some n
    · rw [if_pos hx] at h
      cases h
      exact ⟨x, by simp, List.find?_cons_of_pos _ hx⟩
    · rw [if_neg hx] at h
      cases hres : findIndexNamed n xs with
      | none => rw [hres] at h; cases h
      | some j =>
        rw [hres, Option.map_some'] at h
        cases h
        obtain ⟨p, hp, hf⟩ := ih hres
        refine ⟨p, by simpa using hp, ?_⟩
        rw [List.find?_cons_of_neg _ (by simpa using hx)]
        exact hf

/-- `findIndexNamed` fails exactly when `find?` fails. -/
theorem findIndexNamed_none_spec {n : String} :
    ∀ {l : List RegistryEntry}, findIndexNamed n l = none ↔
      List.find? (fun q => q.1 == some n) l = none := by
  intro l
  induction l with
  | nil => simp [findIndexNamed]
  | cons x xs ih =>
    by_cases hx : x.1 == some n
    · simp [findIndexNamed, hx, List.find?_cons_of_pos _ hx]
    · rw [List.find?_cons_of_neg _ (by simpa using hx)]
      simp [findIndexNamed, hx, ih]

/-- When no entry before `p` stores the requested name and `p` does,
`instance_named` returns the instance of `p`. -/
theorem instance_named_first_match (env : ScriptEnv) (n : String)
    (l₁ : List RegistryEntry) (p : RegistryEntry) (l₂ : List RegistryEntry)
    (hsplit : env.instances = l₁ ++ p :: l₂) (hp : p.1 = some n)
    (hfirst : ∀ q ∈ l₁, q.1 ≠ some n) :
    env.instance_named (some n) = .ok p.2 := by
  have h1 : List.find? (fun q => q.1 == some n) l₁ = none := by
    rw [List.find?_eq_none]
    intro x hx
    simpa using hfirst x hx
  have h2 : List.find? (fun q => q.1 == some n) (p :: l₂) = some p :=
    List.find?_cons_of_pos _ (by simp [hp])
  simp [ScriptEnv.instance_named, hsplit, List.find?_append, h1, h2]

/-- Claim C2: resolution with an absent name returns the most recently
inserted entry and fails on the empty registry; resolution with a present
name returns the first entry in insertion order whose stored name equals the
requested name and fails when none matches; every resolution failure is a
`MalformedScript` error, never any other kind. -/
theorem resolution_semantics :
    (∀ (env : ScriptEnv) (l : List RegistryEntry) (p : RegistryEntry),
       env.instances = l ++ [p] → env.instance_named none = .ok p.2) ∧
    (∀ env : ScriptEnv, env.instances = [] →
       env.instance_named none =
         .error (.MalformedScript "no defined instances")) ∧
    (∀ (env : ScriptEnv) (n : String) (l₁ : List RegistryEntry)
       (p : RegistryEntry) (l₂ : List RegistryEntry),
       env.instances = l₁ ++ p :: l₂ → p.1 = some n →
       (∀ q ∈ l₁, q.1 ≠ some n) →
       env.instance_named (some n) = .ok p.2) ∧
    (∀ (env : ScriptEnv) (n : String), (∀ q ∈ env.instances, q.1 ≠ some n) →
       env.instance_named (some n) =
         .error (.MalformedScript ("no instance named " ++ n))) ∧
    (∀ (env : ScriptEnv) (name : Option String) (e : ScriptError),
       env.instance_named name = .error e → ∃ msg, e = .MalformedScript msg) := by
  refine ⟨?_, ?_, ?_, ?_, ?_⟩
  · intro env l p hsplit
    simp [ScriptEnv.instance_named, hsplit, List.getLast?_concat]
  · intro env hnil
    simp [ScriptEnv.instance_named, hnil]
  · exact fun env n l₁ p l₂ h1 h2 h3 => instance_named_first_match env n l₁ p l₂ h1 h2 h3
  · intro env n hnone
    have hfd : List.find? (fun q => q.1 == some n) env.instances = none := by
      rw [List.find?_eq_none]
      intro x hx
      simpa using hnone x hx
    simp [ScriptEnv.instance_named, hfd]
  · intro env name e h
    obtain ⟨l⟩ := env
    cases name with
    | none =>
      cases hg : l.getLast? with
      | some p => simp [ScriptEnv.instance_named, hg] at h
      | none =>
        simp only [ScriptEnv.instance_named, hg, Except.error.injEq] at h
        exact ⟨_, h.symm⟩
    | some n =>
      cases hfd : List.find? (fun q => q.1 == some n) l with
      | some p => simp [ScriptEnv.instance_named, hfd] at h
      | none =>
        simp only [ScriptEnv.instance_named, hfd, Except.error.injEq] at h
        exact ⟨_, h.symm⟩

/-- Claim C2 witness: concrete resolution by absent and present names. -/
theorem resolution_semantics_witness :
    (ScriptEnv.mk [(some "a", inst1), (none, inst2)]).instance_named none =
        .ok inst2 ∧
    (ScriptEnv.mk [(some "a", inst1), (none, inst2)]).instance_named (some "a") =
        .ok inst1 :=
  ⟨resolution_semantics.1 ⟨[(some "a", inst1), (none, inst2)]⟩
      [(some "a", inst1)] (none, inst2) rfl,
   resolution_semantics.2.2.1 ⟨[(some "a", inst1), (none, inst2)]⟩ "a"
      [] (some "a", inst1) [(none, inst2)] rfl rfl (by simp)⟩

/-- Claim C10: the mutable and immutable resolvers agree: they fail with the
same error in the same cases, and on success the mutable resolver's position
holds exactly the entry whose instance the immutable resolver returns. -/
theorem resolvers_agree (env : ScriptEnv) (name : Option String) :
    (∀ e, env.instance_named_mut name = .error e ↔
       env.instance_named name = .error e) ∧
    (∀ i, env.instance_named_mut name = .ok i →
       ∃ p, env.instances[i]? = some p ∧ env.instance_named name = .ok p.2) := by
  obtain ⟨l⟩ := env
  cases name with
  | none =>
    cases l with
    | nil =>
      refine ⟨fun e => ?_, fun i hi => ?_⟩
      · simp [ScriptEnv.instance_named_mut, ScriptEnv.instance_named]
      · simp [ScriptEnv.instance_named_mut] at hi
    | cons x xs =>
      have hne : (x :: xs : List RegistryEntry) ≠ [] := by simp
      obtain ⟨p, hp⟩ : ∃ p, (x :: xs : List RegistryEntry).getLast? = some p :=
        ⟨(x :: xs).getLast hne, List.getLast?_eq_getLast _ hne⟩
      have hidx : (x :: xs : List RegistryEntry)[(x :: xs).length - 1]? = some p := by
        rw [← List.getLast?_eq_getElem?]
        exact hp
      refine ⟨fun e => ?_, fun i hi => ?_⟩
      · simp [ScriptEnv.instance_named_mut, ScriptEnv.instance_named, hp]
      · simp only [ScriptEnv.instance_named_mut, List.isEmpty_cons, if_neg] at hi
        cases hi
        refine ⟨p, by simpa using hidx, ?_⟩
        simp [ScriptEnv.instance_named, hp]
  | some n =>
    cases hf : findIndexNamed n l with
    | none =>
      have hfind : List.find? (fun q => q.1 == some n) l = none :=
        findIndexNamed_none_spec.mp hf
      refine ⟨fun e => ?_, fun i hi => ?_⟩
      · simp [ScriptEnv.instance_named_mut, ScriptEnv.instance_named, hf, hfind]
      · simp [ScriptEnv.instance_named_mut, hf] at hi
    | some j =>
      obtain ⟨p, hp, hfind⟩ := findIndexNamed_some_spec hf
      refine ⟨fun e => ?_, fun i hi => ?_⟩
      · simp [ScriptEnv.instance_named_mut, ScriptEnv.instance_named, hf, hfind]
      · simp only [ScriptEnv.instance_named_mut, hf] at hi
        cases hi
        exact ⟨p, hp, by simp [ScriptEnv.instance_named, hfind]⟩

/-- Claim C10 witness: on the empty registry with an absent name both
resolvers fail with the same `MalformedScript` error. -/
theorem resolvers_agree_witness :
    (ScriptEnv.mk []).instance_named_mut none =
        .error (.MalformedScript "no defined instances") ↔
      (ScriptEnv.mk []).instance_named none =
        .error (.MalformedScript "no defined instances") :=
  (resolvers_agree ⟨[]⟩ none).1 (.MalformedScript "no defined instances")

/-- `listModify` preserves length. -/
theorem length_listModify {α : Type} (f : α → α) :
    ∀ (i : Nat) (l : List α), (listModify f i l).length = l.length
  | i, [] => by cases i <;> rfl
  | 0, _ :: _ => rfl
  | n + 1, x :: xs => by
      simp only [listModify, List.length_cons, length_listModify f n xs]

/-- `listModify` leaves every other position unchanged. -/
theorem getElem?_listModify_ne {α : Type} (f : α → α) :
    ∀ (i j : Nat) (l : List α), j ≠ i → (listModify f i l)[j]? = l[j]?
  | _, _, [], _ => by simp [listModify]
  | 0, 0, _ :: _, h => absurd rfl h
  | 0, _ + 1, x :: xs, _ => by simp [listModify]
  | _ + 1, 0, x :: xs, _ => by simp [listModify]
  | i + 1, j + 1, x :: xs, h => by
      simp only [listModify, List.getElem?_cons_succ]
      exact getElem?_listModify_ne f i j xs (by omega)

/-- `listModify` applies `f` exactly at the given position. -/
theorem getElem?_listModify_eq {α : Type} (f : α → α) :
    ∀ (i : Nat) (l : List α) (p : α), l[i]? = some p →
      (listModify f i l)[i]? = some (f p)
  | _, [], p => by intro h; cases h
  | 0, x :: xs, p => by
      intro h
      simp only [List.getElem?_cons_zero, Option.some.injEq] at h
      subst h
      simp [listModify]
  | i + 1, x :: xs, p => by
      intro h
      simp only [List.getElem?_cons_succ] at h
      simp only [listModify, List.getElem?_cons_succ]
      exact getElem?_listModify_eq f i xs p h

/-- `listModify` at a valid position splits the list around the modified
element. -/
theorem listModify_eq_append {α : Type} (f : α → α) :
    ∀ (i : Nat) (l : List α) (p : α), l[i]? = some p →
      listModify f i l = l.take i ++ f p :: l.drop (i + 1)
  | _, [], p => by intro h; cases h
  | 0, x :: xs, p => by
      intro h
      simp only [List.getElem?_cons_zero, Option.some.injEq] at h
      subst h
      simp [listModify]
  | i + 1, x :: xs, p => by
      intro h
      simp only [List.getElem?_cons_succ] at h
      simp only [listModify, List.take_succ_cons, List.drop_succ_cons,
        List.cons_append, List.cons.injEq, true_and]
      exact listModify_eq_append f i xs p h

/-- Claim C6 counterexample: with entries named "A" then "B", registering the
"B" entry under the already-used alias "A" succeeds and overwrites only that
entry's name, but resolving "A" afterwards returns the first entry's
instance, not the instance that was just registered. -/
theorem register_alias_counterexample :
    (ScriptEnv.mk [(some "A", inst1), (some "B", inst2)]).register (some "B") "A"
        = .ok ⟨[(some "A", inst1), (some "A", inst2)]⟩ ∧
    (ScriptEnv.mk [(some "A", inst1), (some "A", inst2)]).instance_named (some "A")
        = .ok inst1 ∧
    inst1 ≠ inst2 := by decide

/-- Claim C6 (amended): a successful `register(name, new_alias)` overwrites
only the stored name of the resolved entry — the registry's length, every
other entry, and the resolved entry's instance are unchanged — and, provided
no earlier entry already stores the new alias, resolving by the new alias
afterwards returns the same instance identity. -/
theorem register_overwrites_name_only (env : ScriptEnv) (name : Option String)
    (as_name : String) (i : Nat) (p : RegistryEntry) (env' : ScriptEnv)
    (hres : env.instance_named_mut name = .ok i)
    (hp : env.instances[i]? = some p)
    (hreg : env.register name as_name = .ok env') :
    env'.instances.length = env.instances.length ∧
    (∀ j, j ≠ i → env'.instances[j]? = env.instances[j]?) ∧
    env'.instances[i]? = some (some as_name, p.2) ∧
    ((∀ q ∈ env.instances.take i, q.1 ≠ some as_name) →
      env'.instance_named (some as_name) = .ok p.2) := by
  have henv' : env'.instances =
      listModify (fun q => (some as_name, q.2)) i env.instances := by
    simp only [ScriptEnv.register, hres, Except.ok.injEq] at hreg
    rw [← hreg]
  refine ⟨?_, ?_, ?_, ?_⟩
  · rw [henv']; exact length_listModify _ i _
  · intro j hj; rw [henv']; exact getElem?_listModify_ne _ i j _ hj
  · rw [henv']; exact getElem?_listModify_eq _ i _ p hp
  · intro hfirst
    exact instance_named_first_match env' as_name (env.instances.take i)
      (some as_name, p.2) (env.instances.drop (i + 1))
      (by rw [henv']; exact listModify_eq_append _ i _ p hp) rfl hfirst

/-- Claim C6 witness: registering the second entry under the fresh alias "C"
makes "C" resolve to that entry's instance. -/
theorem register_overwrites_name_only_witness :
    (ScriptEnv.mk [(some "A", inst1), (some "C", inst2)]).instance_named
      (some "C") = .ok inst2 := by
  have h := (register_overwrites_name_only
    ⟨[(some "A", inst1), (some "B", inst2)]⟩ (some "B") "C" 1
    (some "B", inst2) ⟨[(some "A", inst1), (some "C", inst2)]⟩
    (by decide) (by decide) (by decide)).2.2.2 (by decide)
  simpa using h

/-- An external world in which only `Region::new_instance` fails. -/
def niFailWorld : ExternalWorld :=
  ⟨.ok ⟨0⟩, .ok ⟨0⟩, .ok ⟨"/tmp/codegen0"⟩, .ok ⟨0⟩, .ok ⟨0⟩, .ok (),
   .ok ⟨true, ""⟩, .ok ⟨0⟩, .ok ⟨0⟩, .error "oom"⟩

/-- Claim C1: every instantiate call that returns (rather than panicking)
either fully succeeds and appends exactly one entry — the given optional name
paired with the new `Instance` — at the end of the registry, or returns a
`ScriptError` and leaves the registry exactly unchanged. -/
theorem instantiate_atomic (w : ExternalWorld) (name : Option String)
    (st : ScriptState) (h : ((instantiate w name st).1).isPanic = false) :
    (∃ inst, (instantiate w name st).1 = .ok () ∧
       (instantiate w name st).2.env.instances =
         st.env.instances ++ [(name, inst)]) ∨
    (∃ e, (instantiate w name st).1 = .err e ∧
       (instantiate w name st).2.env = st.env) := by
  obtain ⟨d, pn, td, cp, cg, ow, lo, dl, rc, ni⟩ := w
  cases d with
  | error e => exact Or.inr ⟨_, rfl, rfl⟩
  | ok m =>
  cases pn with
  | error e => exact Or.inr ⟨_, rfl, rfl⟩
  | ok prog =>
  cases td with
  | error e => exact Or.inr ⟨_, rfl, rfl⟩
  | ok dir =>
  cases cp with
  | error e => exact Or.inr ⟨_, rfl, rfl⟩
  | ok cu =>
  cases cg with
  | error e => exact Or.inr ⟨_, rfl, rfl⟩
  | ok oc =>
  cases ow with
  | error e => exact Or.inr ⟨_, rfl, rfl⟩
  | ok u =>
  cases lo with
  | error e => exact Or.inr ⟨_, rfl, rfl⟩
  | ok out =>
  obtain ⟨s, serr⟩ := out
  cases s with
  | false => exact Or.inr ⟨_, rfl, rfl⟩
  | true =>
  cases dl with
  | error e => exact Or.inr ⟨_, rfl, rfl⟩
  | ok lm =>
  cases rc with
  | error e => exact Bool.noConfusion h
  | ok reg =>
  cases ni with
  | error e => exact Or.inr ⟨_, rfl, rfl⟩
  | ok si =>
  exact Or.inl ⟨_, rfl, rfl⟩

/-- Claim C1 witness: with every collaborator succeeding, instantiate appends
exactly one entry to the empty registry. -/
theorem instantiate_atomic_witness :
    ((instantiate okWorld none emptyState).1).isPanic = false ∧
    ((∃ inst, (instantiate okWorld none emptyState).1 = .ok () ∧
        (instantiate okWorld none emptyState).2.env.instances =
          emptyState.env.instances ++ [(none, inst)]) ∨
     (∃ e, (instantiate okWorld none emptyState).1 = .err e ∧
        (instantiate okWorld none emptyState).2.env = emptyState.env)) :=
  ⟨by decide, instantiate_atomic okWorld none emptyState (by decide)⟩

/-- Claim C9: the scoped temporary directory created for codegen output is
dropped (deleted from disk) on every exit path of `instantiate` — success,
error at any pipeline stage, or panic — so the temporary directories on disk
after the attempt are exactly those that existed before it. -/
theorem instantiate_cleans_tempdirs (w : ExternalWorld) (name : Option String)
    (st : ScriptState) :
    ((instantiate w name st).2).tempDirs = st.tempDirs := by
  obtain ⟨d, pn, td, cp, cg, ow, lo, dl, rc, ni⟩ := w
  cases d with
  | error e => rfl
  | ok m =>
  cases pn with
  | error e => rfl
  | ok prog =>
  cases td with
  | error e => rfl
  | ok dir =>
  have herase : (dir :: st.tempDirs).erase dir = st.tempDirs :=
    List.erase_cons_head dir st.tempDirs
  cases cp with
  | error e => exact herase
  | ok cu =>
  cases cg with
  | error e => exact herase
  | ok oc =>
  cases ow with
  | error e => exact herase
  | ok u =>
  cases lo with
  | error e => exact herase
  | ok out =>
  obtain ⟨s, serr⟩ := out
  cases s with
  | false => exact herase
  | true =>
  cases dl with
  | error e => exact herase
  | ok lm =>
  cases rc with
  | error e => exact herase
  | ok reg =>
  cases ni with
  | error e => exact herase
  | ok si =>
  exact herase

/-- Claim C9 witness: a concrete successful attempt leaves no temporary
directory behind. -/
theorem instantiate_cleans_tempdirs_witness :
    ((instantiate okWorld none emptyState).2).tempDirs = emptyState.tempDirs :=
  instantiate_cleans_tempdirs okWorld none emptyState

/-- Claim C3 counterexample: when sandbox region allocation fails,
`instantiate` panics with "valid region" (`expect`) instead of returning the
`InstantiateError` kind of `ScriptError`. -/
theorem region_failure_panics :
    (instantiate regionFailWorld none emptyState).1 = .panicked "valid region" ∧
    ((instantiate regionFailWorld none emptyState).1).isPanic = true := by
  decide

/-- Claim C3 (amended): in the Instantiate stage, a failure of instantiating
the loaded module inside the region is returned as the `InstantiateError`
kind of `ScriptError`, while a failure of sandbox region allocation is a
fatal panic, not a returned `ScriptError`. -/
theorem instantiate_stage_errors (w : ExternalWorld) (name : Option String)
    (st : ScriptState) (m : WasmModule) (prog : Program) (dir : TempDir)
    (cu : CompilerUnit) (oc : ObjectCode) (out : LdOutput) (lm : LucetModule)
    (h1 : w.deserialize_buffer = .ok m) (h2 : w.program_new = .ok prog)
    (h3 : w.tempdir_new = .ok dir) (h4 : w.compile = .ok cu)
    (h5 : w.codegen = .ok oc) (h6 : w.object_write = .ok ())
    (h7 : w.ld_output = .ok out) (h8 : out.success = true)
    (h9 : w.dlmodule_load = .ok lm) :
    (∀ e, w.mmap_region_create = .error e →
       (instantiate w name st).1 = .panicked "valid region") ∧
    (∀ r e, w.mmap_region_create = .ok r → w.new_instance = .error e →
       (instantiate w name st).1 = .err (.InstantiateError e)) := by
  obtain ⟨d, pn, td, cp, cg, ow, lo, dl, rc, ni⟩ := w
  dsimp only at h1 h2 h3 h4 h5 h6 h7 h9
  subst h1 h2 h3 h4 h5 h6 h7 h9
  obtain ⟨s, serr⟩ := out
  dsimp only at h8
  subst h8
  constructor
  · intro e hrc
    dsimp only at hrc
    subst hrc
    rfl
  · intro r e hrc hni
    dsimp only at hrc hni
    subst hrc hni
    rfl

/-- Claim C3 witness: a concrete failure of `new_instance` surfaces as
`InstantiateError`. -/
theorem instantiate_stage_errors_witness :
    (instantiate niFailWorld none emptyState).1 =
      .err (.InstantiateError "oom") :=
  (instantiate_stage_errors niFailWorld none emptyState ⟨0⟩ ⟨0⟩
    ⟨"/tmp/codegen0"⟩ ⟨0⟩ ⟨0⟩ ⟨true, ""⟩ ⟨0⟩
    rfl rfl rfl rfl rfl rfl rfl rfl rfl).2 ⟨0⟩ "oom" rfl rfl

end LucetSpectest
